import Mathlib

/-!
Verification of the Xcode object-graph / identifier / serializer subsystem of
this repository (Source/cmXCodeObject.cxx) and of the NSIS packaging backend
(Source/CPack/cmCPackNSISGenerator.cxx).

The C++ code is shallowly embedded: each C++ function becomes a Lean
function, the process-wide identifier cache and sequence counter become an
explicit `IdState` record threaded through the functions, stream output
becomes the returned `String`, and external effects (the SHA-256 library
call, the filesystem, the registry, process execution) become explicit
parameters of the embedded functions.
-/

namespace CMakeXcode

/-- Enumeration of Xcode entity kinds, mirroring `cmXCodeObject::PBXType`
(order and spelling follow the `PBXTypeNames` table in the source). -/
inductive PBXType where
  | PBXGroup
  | PBXBuildStyle
  | PBXProject
  | PBXHeadersBuildPhase
  | PBXSourcesBuildPhase
  | PBXFrameworksBuildPhase
  | PBXNativeTarget
  | PBXFileReference
  | PBXBuildFile
  | PBXContainerItemProxy
  | PBXTargetDependency
  | PBXShellScriptBuildPhase
  | PBXResourcesBuildPhase
  | PBXApplicationReference
  | PBXExecutableFileReference
  | PBXLibraryReference
  | PBXToolTarget
  | PBXLibraryTarget
  | PBXAggregateTarget
  | XCBuildConfiguration
  | XCConfigurationList
  | PBXCopyFilesBuildPhase
  | None
deriving DecidableEq

/-- The `PBXTypeNames` table of the source: the printed name of each entity
kind. -/
def PBXTypeNames : PBXType → String
  | .PBXGroup => "PBXGroup"
  | .PBXBuildStyle => "PBXBuildStyle"
  | .PBXProject => "PBXProject"
  | .PBXHeadersBuildPhase => "PBXHeadersBuildPhase"
  | .PBXSourcesBuildPhase => "PBXSourcesBuildPhase"
  | .PBXFrameworksBuildPhase => "PBXFrameworksBuildPhase"
  | .PBXNativeTarget => "PBXNativeTarget"
  | .PBXFileReference => "PBXFileReference"
  | .PBXBuildFile => "PBXBuildFile"
  | .PBXContainerItemProxy => "PBXContainerItemProxy"
  | .PBXTargetDependency => "PBXTargetDependency"
  | .PBXShellScriptBuildPhase => "PBXShellScriptBuildPhase"
  | .PBXResourcesBuildPhase => "PBXResourcesBuildPhase"
  | .PBXApplicationReference => "PBXApplicationReference"
  | .PBXExecutableFileReference => "PBXExecutableFileReference"
  | .PBXLibraryReference => "PBXLibraryReference"
  | .PBXToolTarget => "PBXToolTarget"
  | .PBXLibraryTarget => "PBXLibraryTarget"
  | .PBXAggregateTarget => "PBXAggregateTarget"
  | .XCBuildConfiguration => "XCBuildConfiguration"
  | .XCConfigurationList => "XCConfigurationList"
  | .PBXCopyFilesBuildPhase => "PBXCopyFilesBuildPhase"
  | .None => "None"

/-- The value-kind tag of a node, mirroring `cmXCodeObject::Type`. -/
inductive XType where
  | OBJECT
  | ATTRIBUTE_GROUP
  | OBJECT_LIST
  | STRING
  | OBJECT_REF
deriving DecidableEq

/-- A `cmXCodeObject` node.  Fields follow the C++ members: `Version`,
`IsA`, `TypeValue`, `Id`, `Comment`, `ObjectAttributes` (attribute values may
be null pointers in C++, hence `Option`), `List`, `String` and the
non-owning `Object` pointer (null becomes `none`).  The C++ members `List`,
`String` and `Object` are written `List_`, `String_`, `Object_` here to
avoid clashing with the Lean type names. -/
inductive XObj where
  | mk
    (Version : Nat)
    (IsA : PBXType)
    (TypeValue : XType)
    (Id : String)
    (Comment : String)
    (ObjectAttributes : List (String × Option XObj))
    (List_ : List XObj)
    (String_ : String)
    (Object_ : Option XObj)

/-- Accessor for the `Version` member. -/
def XObj.Version : XObj → Nat
  | .mk v _ _ _ _ _ _ _ _ => v

/-- Accessor for the `IsA` member. -/
def XObj.IsA : XObj → PBXType
  | .mk _ i _ _ _ _ _ _ _ => i

/-- Accessor for the `TypeValue` member. -/
def XObj.TypeValue : XObj → XType
  | .mk _ _ t _ _ _ _ _ _ => t

/-- Accessor for the `Id` member. -/
def XObj.Id : XObj → String
  | .mk _ _ _ i _ _ _ _ _ => i

/-- Accessor for the `Comment` member. -/
def XObj.Comment : XObj → String
  | .mk _ _ _ _ c _ _ _ _ => c

/-- Accessor for the `ObjectAttributes` member. -/
def XObj.ObjectAttributes : XObj → List (String × Option XObj)
  | .mk _ _ _ _ _ a _ _ _ => a

/-- Accessor for the `List` member. -/
def XObj.List_ : XObj → List XObj
  | .mk _ _ _ _ _ _ l _ _ => l

/-- Accessor for the `String` member. -/
def XObj.String_ : XObj → String
  | .mk _ _ _ _ _ _ _ s _ => s

/-- Accessor for the `Object` member (the non-owning link; `none` is the
C++ null pointer). -/
def XObj.Object_ : XObj → Option XObj
  | .mk _ _ _ _ _ _ _ _ o => o

/-! ## Identity generator

The process-wide mutable state of `cmXCodeObject.cxx`: the
`objectIdCache` map and the `sequenceIndex` counter.  The C++ `std::map`
is embedded as an association list that is only ever extended with keys
not already present, so `List.lookup` has exactly the `std::map::find`
semantics the code relies on. -/

/-- The process-wide identifier state: `objectIdCache` and
`sequenceIndex` of the source. -/
structure IdState where
  objectIdCache : List (String × String)
  sequenceIndex : Nat
deriving DecidableEq

/-- The modulus of the C++ `size_t` counter (64-bit). -/
def sizeTMod : Nat := 2 ^ 64

/-- Hex encoding of one digest byte, mirroring
`setw(2) << setfill('0') << hex << (int)digest[i]`: two lowercase hex
characters for every byte value below 256. -/
def hexByteChars (b : Nat) : List Char := [Nat.digitChar (b / 16), Nat.digitChar (b % 16)]

/-- The hex-encoding loop of `cmGetUniqueXcodeId`: the first 12 digest
bytes, each rendered as two lowercase hex characters. -/
def hexOf12 (digestBytes : List Nat) : String :=
  ⟨((digestBytes.take 12).map hexByteChars).flatten⟩

/-- The statement `xcodeId.erase(xcodeId.begin() + 24)` of the source:
`std::string::erase(iterator)` removes the single character at index 24. -/
def eraseAt24 (s : String) : String := ⟨s.data.eraseIdx 24⟩

/-- The identifier computed by the cache-miss branch of
`cmGetUniqueXcodeId`: tag, then hex of the first 12 digest bytes, then the
one-character erase when longer than 24 characters. -/
def rawHashId (digest : String → List Nat) (hashingKey pfx : String) : String :=
  let xcodeId := pfx ++ hexOf12 (digest hashingKey)
  if xcodeId.length > 24 then eraseAt24 xcodeId else xcodeId

/-- `cmGetUniqueXcodeId` of the source.  `digest` stands for the external
`CC_SHA256` library call (a black-box 32-byte digest per the spec); the
cache is consulted under the key `prefix + "-" + hashingKey` and filled on
a miss. -/
def cmGetUniqueXcodeId (digest : String → List Nat) (st : IdState)
    (hashingKey pfx : String) : String × IdState :=
  let lookupKey := pfx ++ "-" ++ hashingKey
  match List.lookup lookupKey st.objectIdCache with
  | some v => (v, st)
  | none =>
    let xcodeId := rawHashId digest hashingKey pfx
    (xcodeId, { st with objectIdCache := (lookupKey, xcodeId) :: st.objectIdCache })

/-- `cmXCodeObject::resetIdSequence`: set the counter back to zero. -/
def resetIdSequence (st : IdState) : IdState := { st with sequenceIndex := 0 }

/-- Big-endian decimal digits of a natural number (the digits written by
`std::to_string`). -/
def decDigits (n : Nat) : List Nat :=
  if h : n < 10 then [n] else decDigits (n / 10) ++ [n % 10]
termination_by n
decreasing_by exact Nat.div_lt_self (by omega) (by omega)

/-- `std::to_string` on an unsigned value: the decimal digit string. -/
def natToDecStr (n : Nat) : String := ⟨(decDigits n).map Nat.digitChar⟩

/-- The padding loop of the constructor: `while (id.length() < 22) id = "0" + id`. -/
def padTo22 (l : List Char) : List Char :=
  if l.length < 22 then padTo22 ('0' :: l) else l
termination_by 22 - l.length
decreasing_by simp; omega

/-- Modelled from the spec: `cmSystemTools::ReplaceString(this->Id, "-", "")`
is repository code that is not part of the given sources; per the spec it
strips any separator (hyphen) characters from the identifier before use. -/
def cmReplaceHyphens (s : String) : String := ⟨s.data.filter (fun c => c ≠ '-')⟩

/-- The `cmXCodeObject` constructor.  It fills the member fields
(`Version = 15`, null `Object`, the given `IsA` and `TypeValue`), chooses
the identifier (sequence-derived for an empty hashing key, content-derived
otherwise, a fixed placeholder for non-`OBJECT` nodes), strips separators,
truncates to 24 characters, and installs the initial `isa` attribute (a
null value) for `OBJECT` nodes. -/
def cmXCodeObjectMk (digest : String → List Nat) (ptype : PBXType) (ty : XType)
    (hashingKey : String) (st : IdState) : XObj × IdState :=
  let (rawId, st') :=
    if ty = XType.OBJECT then
      if hashingKey.length = 0 then
        ("01" ++ (⟨padTo22 (natToDecStr
            ((st.sequenceIndex + 1) % sizeTMod)).data⟩ : String),
         { st with sequenceIndex := (st.sequenceIndex + 1) % sizeTMod })
      else
        cmGetUniqueXcodeId digest st hashingKey "02"
    else
      ("Temporary cmake object, should not be referred to in Xcode file", st)
  let id1 := cmReplaceHyphens rawId
  let id2 := if id1.length > 24 then (⟨id1.data.take 24⟩ : String) else id1
  (XObj.mk 15 ptype ty id2 ""
    (if ty = XType.OBJECT then [("isa", none)] else []) [] "" none, st')

/-- One sequential generation pass: `n` consecutive `OBJECT` constructions
with an empty hashing key, returning the issued identifiers in order. -/
def runSeq (digest : String → List Nat) (ptype : PBXType) :
    Nat → IdState → List String × IdState
  | 0, st => ([], st)
  | n + 1, st =>
    let (o, st1) := cmXCodeObjectMk digest ptype XType.OBJECT "" st
    let (ids, st2) := runSeq digest ptype n st1
    (o.Id :: ids, st2)

/-! ## Quoting -/

/-- Membership in the character set of the `find_first_not_of` call of
`cmXCodeObject::PrintString`: letters, digits, `$`, `_`, `.`, `/`. -/
def unquotedChar (c : Char) : Bool :=
  ('A' ≤ c && c ≤ 'Z') || ('a' ≤ c && c ≤ 'z') || ('0' ≤ c && c ≤ '9') ||
    c = '$' || c = '_' || c = '.' || c = '/'

/-- Whether `pat` is an initial segment of `l` (helper for substring
search). -/
def startsWithChars : List Char → List Char → Bool
  | [], _ => true
  | _ :: _, [] => false
  | p :: ps, c :: cs => p = c && startsWithChars ps cs

/-- Substring search, the semantics of `std::string::find(pat) != npos`. -/
def containsSub (pat : List Char) : List Char → Bool
  | [] => startsWithChars pat []
  | c :: cs => startsWithChars pat (c :: cs) || containsSub pat cs

/-- The quoting predicate of `cmXCodeObject::PrintString`: empty, contains
`//`, or contains a character outside the unquoted set. -/
def needQuote (s : String) : Bool :=
  s.length = 0 || containsSub ['/', '/'] s.data ||
    s.data.any (fun c => !unquotedChar c)

/-- The character loop of `PrintString`: a backslash is emitted before
every double quote and every backslash, every character is then emitted. -/
def escapeChars : List Char → List Char
  | [] => []
  | c :: cs => (if c = '"' || c = '\\' then ['\\', c] else [c]) ++ escapeChars cs

/-- `cmXCodeObject::PrintString(os, String)`: the quoted and escaped form
of a string. -/
def PrintString (s : String) : String :=
  let quote := if needQuote s then "\"" else ""
  quote ++ (⟨escapeChars s.data⟩ : String) ++ quote

/-! ## Serializer -/

/-- `cmXCodeObject::Indent(level, out)`: `level` tab characters. -/
def Indent (level : Nat) : String := ⟨List.replicate level '\t'⟩

/-- Modelled from the spec: `HasComment` is declared in the header
`cmXCodeObject.h`, which is not part of the given sources; per the spec an
object "carries a comment" when its (opaque, builder-supplied) comment
text is present. -/
def HasComment (o : XObj) : Bool := !(o.Comment = "")

/-- Modelled from the spec: `PrintComment` is declared in the header
`cmXCodeObject.h`, which is not part of the given sources; per the spec's
output grammar (`<id> /*comment*/ = ...`) it appends the comment wrapped
in `/* */` when the object carries one, and nothing otherwise. -/
def PrintCommentStr (o : XObj) : String :=
  if o.Comment = "" then "" else " /* " ++ o.Comment ++ " */"

/-- The body of one iteration of the element loop in the `OBJECT_LIST`
case of `PrintAttribute`: a `STRING` element is printed quoted, with a
comma exactly when it is not the last element (`i + 1 < size`); any other
element is printed as an indented identifier with its comment, a comma and
the separator. -/
def listItemStr (sep : String) (level factor : Nat) (e : XObj) (isLast : Bool) :
    String :=
  if e.TypeValue = XType.STRING then
    PrintString e.String_ ++ (if isLast then "" else ",")
  else
    Indent ((level + 1) * factor) ++ e.Id ++ PrintCommentStr e ++ "," ++ sep

/-- The element loop of the `OBJECT_LIST` case of `PrintAttribute`. -/
def printListItems (sep : String) (level factor : Nat) : List XObj → String
  | [] => ""
  | e :: rest =>
    listItemStr sep level factor e rest.isEmpty ++ printListItems sep level factor rest

mutual

/-- `cmXCodeObject::PrintAttribute`: renders one named attribute value.
Only the parent's `TypeValue` is consulted by the source, so only it is
passed.  A null `OBJECT_REF` target would be a null-pointer dereference in
the source (undefined); it renders an empty identifier here and is never
reached by the theorems. -/
def PrintAttribute (level : Nat) (sep : String) (factor : Nat) (name : String) :
    XObj → XType → String
  | XObj.mk _ _ tv _ _ attrs lst sv ob, parentTV =>
    Indent (level * factor) ++
    match tv with
    | XType.OBJECT_LIST =>
      name ++ " = (" ++
      (if parentTV = XType.ATTRIBUTE_GROUP then "" else sep) ++
      printListItems sep level factor lst ++
      (if parentTV = XType.ATTRIBUTE_GROUP then "" else Indent (level * factor)) ++
      ");" ++ sep
    | XType.ATTRIBUTE_GROUP =>
      name ++ " = \x7b" ++ (if sep = "\n" then sep else "") ++
      printGroupAttrs ((level + 1) * factor) sep factor attrs ++
      Indent (level * factor) ++ "\x7d;" ++ sep
    | XType.OBJECT_REF =>
      PrintString name ++ " = " ++
      (match ob with
       | some t =>
         t.Id ++
         (if HasComment t && name ≠ "remoteGlobalIDString" then PrintCommentStr t
          else "")
       | none => "") ++
      ";" ++ sep
    | XType.STRING =>
      PrintString name ++ " = " ++ PrintString sv ++ ";" ++ sep
    | XType.OBJECT => ""

/-- The attribute loop of the `ATTRIBUTE_GROUP` case of `PrintAttribute`:
each child attribute is rendered one indent level deeper with the group as
parent.  A null attribute value would be dereferenced by the source
(undefined); it renders nothing here and is never reached by the
theorems. -/
def printGroupAttrs (level : Nat) (sep : String) (factor : Nat) :
    List (String × Option XObj) → String
  | [] => ""
  | (k, some v) :: rest =>
    PrintAttribute level sep factor k v XType.ATTRIBUTE_GROUP ++
      printGroupAttrs level sep factor rest
  | (_, none) :: rest => printGroupAttrs level sep factor rest

end

/-- The layout choice at the top of `cmXCodeObject::Print`: separator and
indentation factor start as `("\n", 1)` and become `(" ", 0)` exactly when
`Version > 15` and the entity kind is `PBXFileReference` or
`PBXBuildFile`. -/
def PrintLayout (o : XObj) : String × Nat :=
  if o.Version > 15 ∧ (o.IsA = PBXType.PBXFileReference ∨ o.IsA = PBXType.PBXBuildFile)
  then (" ", 0) else ("\n", 1)

/-- The attribute loop of `cmXCodeObject::Print`: every attribute except
the reserved `isa` entry is rendered at level 3 with the object itself as
parent. -/
def printObjAttrs (sep : String) (factor : Nat) (parentTV : XType) :
    List (String × Option XObj) → String
  | [] => ""
  | (k, v) :: rest =>
    (if k = "isa" then ""
     else
       match v with
       | some x => PrintAttribute 3 sep factor k x parentTV
       | none => "") ++
    printObjAttrs sep factor parentTV rest

/-- `cmXCodeObject::Print`: the full rendering of one `OBJECT` node. -/
def Print (o : XObj) : String :=
  let (sep, factor) := PrintLayout o
  Indent (2 * factor) ++ o.Id ++ PrintCommentStr o ++ " = \x7b" ++
    (if sep = "\n" then sep else "") ++
    Indent (3 * factor) ++ "isa = " ++ PBXTypeNames o.IsA ++ ";" ++ sep ++
    printObjAttrs sep factor o.TypeValue o.ObjectAttributes ++
    Indent (2 * factor) ++ "\x7d;\n"

/-- `cmXCodeObject::CopyAttributes(copy)`: replaces the four payload
members (`ObjectAttributes`, `List`, `String`, `Object`) of `self` with
those of `cpy`; every other member keeps its value. -/
def CopyAttributes (self cpy : XObj) : XObj :=
  match self, cpy with
  | XObj.mk v i tv id cm _ _ _ _, XObj.mk _ _ _ _ _ a l s ob =>
    XObj.mk v i tv id cm a l s ob

end CMakeXcode

namespace CPackNSIS

/-- The external world consulted by `cmCPackNSISGenerator::CompressFiles`:
the result of `FindTemplate` (empty when not found), the
`CPACK_TOPLEVEL_DIRECTORY` and `CPACK_INSTALLER_PROGRAM` options, and the
launch success, exit code and captured output of `RunSingleCommand`. -/
structure CompressEnv where
  templateFile : String
  toplevel : String
  installerProgram : String
  runOk : Bool
  retVal : Nat
  runOutput : String
deriving DecidableEq

/-- The observable outcome of `CompressFiles`: the returned int, the
messages printed to `std::cerr`, and the `(path, contents)` of every log
file written. -/
structure CompressResult where
  retcode : Nat
  errors : List String
  logs : List (String × String)
deriving DecidableEq

/-- `cmCPackNSISGenerator::CompressFiles`: missing template returns
failure with one error message and no log; a launch failure or non-zero
exit writes the captured output to `NSISOutput.log` in the toplevel
directory and returns failure naming that log; otherwise success. -/
def CompressFiles (env : CompressEnv) : CompressResult :=
  if env.templateFile.length = 0 then
    { retcode := 0,
      errors := ["CPack error: Could not find NSIS installer template file."],
      logs := [] }
  else
    let tmpFile := env.toplevel ++ "/NSISOutput.log"
    let nsisFileName := env.toplevel ++ "/project.nsi"
    let nsisCmd := "\"" ++ env.installerProgram ++ "\" \"" ++ nsisFileName ++ "\""
    if !env.runOk || env.retVal ≠ 0 then
      { retcode := 0,
        errors := ["Problem running NSIS command: " ++ nsisCmd,
                   "Please check " ++ tmpFile ++ " for errors"],
        logs := [(tmpFile,
                  "# Run command: " ++ nsisCmd ++ "\n# Output:\n" ++
                    env.runOutput ++ "\n")] }
    else
      { retcode := 1, errors := [], logs := [] }

/-- The external world consulted by `cmCPackNSISGenerator::Initialize`:
the `HKEY_LOCAL_MACHINE\SOFTWARE\NSIS` registry value, the result of
`FindProgram("makensis", path)` (empty when not found), and the
superclass's `Initialize` result. -/
structure InitEnv where
  registryNSIS : Option String
  makensisProgram : String
  superInit : Nat
deriving DecidableEq

/-- The observable outcome of `Initialize`: the returned int, the messages
printed to `std::cerr`, and the `CPACK_INSTALLER_PROGRAM` option set. -/
structure InitResult where
  retcode : Nat
  errors : List String
  installerProgramOpt : Option String
deriving DecidableEq

/-- `cmCPackNSISGenerator::Initialize`: fails (0) with a message when the
NSIS registry value is missing or when the `makensis` compiler is not
found; otherwise records the compiler path and returns the superclass
result. -/
def NSISInitialize (env : InitEnv) : InitResult :=
  match env.registryNSIS with
  | none =>
    { retcode := 0, errors := ["Cannot find NSIS registry value"],
      installerProgramOpt := none }
  | some _ =>
    if env.makensisProgram.length = 0 then
      { retcode := 0, errors := ["Cannot find NSIS compiler"],
        installerProgramOpt := none }
    else
      { retcode := env.superInit, errors := [],
        installerProgramOpt := some env.makensisProgram }

end CPackNSIS

namespace CMakeXcode

/-! ## Helper lemmas: quoting -/

theorem startsWithChars_iff (p l : List Char) :
    startsWithChars p l = true ↔ ∃ rest, l = p ++ rest := by
  induction p generalizing l with
  | nil => simp [startsWithChars]
  | cons a ps ih =>
    cases l with
    | nil =>
      simp [startsWithChars]
    | cons c cs =>
      simp only [startsWithChars, Bool.and_eq_true, decide_eq_true_eq, ih]
      constructor
      · rintro ⟨rfl, rest, rfl⟩; exact ⟨rest, rfl⟩
      · rintro ⟨rest, h⟩
        injection h with h1 h2
        exact ⟨h1.symm, rest, h2⟩

theorem containsSub_iff (p l : List Char) :
    containsSub p l = true ↔ ∃ l1 l2, l = l1 ++ p ++ l2 := by
  induction l with
  | nil =>
    simp only [containsSub, startsWithChars_iff]
    constructor
    · rintro ⟨rest, h⟩
      exact ⟨[], rest, by simpa using h⟩
    · rintro ⟨l1, l2, h⟩
      exact ⟨l2, by
        cases l1 with
        | nil => simpa using h
        | cons a t => simp at h⟩
  | cons c cs ih =>
    simp only [containsSub, Bool.or_eq_true, startsWithChars_iff, ih]
    constructor
    · rintro (⟨rest, h⟩ | ⟨l1, l2, rfl⟩)
      · exact ⟨[], rest, by simpa using h⟩
      · exact ⟨c :: l1, l2, by simp⟩
    · rintro ⟨l1, l2, h⟩
      cases l1 with
      | nil => exact Or.inl ⟨l2, by simpa using h⟩
      | cons a t =>
        injection h with h1 h2
        exact Or.inr ⟨t, l2, h2⟩

theorem escapeChars_flatten (l : List Char) :
    escapeChars l =
      (l.map (fun c => if c = '"' || c = '\\' then ['\\', c] else [c])).flatten := by
  induction l with
  | nil => rfl
  | cons c cs ih => simp [escapeChars, ih]

theorem escapeChars_of_unquoted (l : List Char)
    (h : ∀ c ∈ l, unquotedChar c = true) : escapeChars l = l := by
  induction l with
  | nil => rfl
  | cons c cs ih =>
    have hc := h c (by simp)
    have hcs := ih (fun c hm => h c (by simp [hm]))
    have h1 : c ≠ '"' := by rintro rfl; simp [unquotedChar] at hc
    have h2 : c ≠ '\\' := by rintro rfl; simp [unquotedChar] at hc
    simp [escapeChars, h1, h2, hcs]

theorem length_eq_zero_iff_empty (s : String) : s.length = 0 ↔ s = "" := by
  constructor
  · intro h
    cases s with
    | mk d =>
      cases d with
      | nil => rfl
      | cons a l => simp [String.length] at h
  · rintro rfl; rfl

/-- C4: the quoting function wraps a string in double quotes iff it is
empty, contains `//`, or contains a character outside
`{A-Z, a-z, 0-9, $, _, ., /}`; when quoting, every embedded double quote
and backslash is prefixed with a backslash and all other characters pass
through unchanged; a string not requiring quoting is emitted verbatim. -/
theorem C4_print_string_quoting (s t : String) (ht : needQuote t = false) :
    (needQuote s = true ↔
      (s = "" ∨ (∃ l1 l2, s.data = l1 ++ '/' :: '/' :: l2) ∨
        ∃ c ∈ s.data, unquotedChar c = false)) ∧
    PrintString s =
      (if needQuote s then "\"" ++ (⟨escapeChars s.data⟩ : String) ++ "\""
       else (⟨escapeChars s.data⟩ : String)) ∧
    escapeChars s.data =
      (s.data.map (fun c => if c = '"' || c = '\\' then ['\\', c] else [c])).flatten ∧
    PrintString t = t := by
  refine ⟨?_, ?_, escapeChars_flatten s.data, ?_⟩
  · simp only [needQuote, Bool.or_eq_true, decide_eq_true_eq,
      length_eq_zero_iff_empty, containsSub_iff, List.any_eq_true,
      Bool.not_eq_true']
    constructor
    · rintro ((h | h) | h)
      · exact Or.inl h
      · exact Or.inr (Or.inl (by
          obtain ⟨l1, l2, hl⟩ := h
          exact ⟨l1, l2, by simpa using hl⟩))
      · exact Or.inr (Or.inr h)
    · rintro (h | h | h)
      · exact Or.inl (Or.inl h)
      · exact Or.inl (Or.inr (by
          obtain ⟨l1, l2, hl⟩ := h
          exact ⟨l1, l2, by simpa using hl⟩))
      · exact Or.inr h
  · by_cases h : needQuote s
    · simp [PrintString, h]
    · simp [PrintString, h]
  · have hall : ∀ c ∈ t.data, unquotedChar c = true := by
      have := ht
      simp only [needQuote, Bool.or_eq_false_iff, List.any_eq_false,
        Bool.not_eq_true'] at this
      intro c hc
      have := this.2 c hc
      simpa using this
    have hesc := escapeChars_of_unquoted t.data hall
    simp [PrintString, ht, hesc]

/-- C4 witness: the spec's own examples, `he said "hi"` (quoted and
escaped) and `path/to/file.txt` (verbatim). -/
theorem C4_witness :
    (needQuote "he said \"hi\"" = true ↔
      ("he said \"hi\"" = "" ∨
        (∃ l1 l2, "he said \"hi\"".data = l1 ++ '/' :: '/' :: l2) ∨
        ∃ c ∈ "he said \"hi\"".data, unquotedChar c = false)) ∧
    PrintString "he said \"hi\"" =
      (if needQuote "he said \"hi\"" then
        "\"" ++ (⟨escapeChars "he said \"hi\"".data⟩ : String) ++ "\""
       else (⟨escapeChars "he said \"hi\"".data⟩ : String)) ∧
    escapeChars "he said \"hi\"".data =
      ("he said \"hi\"".data.map
        (fun c => if c = '"' || c = '\\' then ['\\', c] else [c])).flatten ∧
    PrintString "path/to/file.txt" = "path/to/file.txt" :=
  C4_print_string_quoting "he said \"hi\"" "path/to/file.txt" (by decide)

/-- C5: the compact layout (single-space separator, zero indentation
factor) is selected iff the format version exceeds 15 and the entity kind
is `PBXFileReference` or `PBXBuildFile`; otherwise the expanded layout
(newline separator, indentation factor 1) is used. -/
theorem C5_layout_selection (o o' : XObj)
    (h : o.Version > 15 ∧
      (o.IsA = PBXType.PBXFileReference ∨ o.IsA = PBXType.PBXBuildFile))
    (h' : ¬(o'.Version > 15 ∧
      (o'.IsA = PBXType.PBXFileReference ∨ o'.IsA = PBXType.PBXBuildFile))) :
    PrintLayout o = (" ", 0) ∧ PrintLayout o' = ("\n", 1) := by
  constructor
  · simp [PrintLayout, h]
  · simp only [PrintLayout, if_neg h']

/-- C5 witness: a version-16 file reference selects the compact layout; a
version-15 group keeps the expanded layout. -/
theorem C5_witness :
    PrintLayout (XObj.mk 16 PBXType.PBXFileReference XType.OBJECT "X" "" [] [] "" none) =
      (" ", 0) ∧
    PrintLayout (XObj.mk 15 PBXType.PBXGroup XType.OBJECT "Y" "" [] [] "" none) =
      ("\n", 1) :=
  C5_layout_selection _ _ (by exact ⟨by decide, Or.inl rfl⟩) (by decide)

/-! ## Helper definitions and lemmas: list-attribute rendering shapes -/

/-- Spec-side description of a "single compact run": the given strings
joined by bare commas, nothing between the last one and what follows. -/
def commaRun : List String → String
  | [] => ""
  | [x] => x
  | x :: y :: rest => x ++ "," ++ commaRun (y :: rest)

/-- Spec-side description of element-by-element concatenation. -/
def strConcat : List String → String
  | [] => ""
  | x :: rest => x ++ strConcat rest

theorem printListItems_strings (sep : String) (level factor : Nat)
    (l : List XObj) (h : ∀ e ∈ l, e.TypeValue = XType.STRING) :
    printListItems sep level factor l =
      commaRun (l.map (fun e => PrintString e.String_)) := by
  induction l with
  | nil => rfl
  | cons e rest ih =>
    have he := h e (by simp)
    have hrest := ih (fun x hx => h x (by simp [hx]))
    cases rest with
    | nil => simp [printListItems, listItemStr, he, commaRun]
    | cons y t =>
      simp only [printListItems, listItemStr, he, if_pos, List.isEmpty_cons,
        if_neg (by simp : ¬(false = true)), List.map_cons] at hrest ⊢
      rw [hrest]
      simp [commaRun, String.append_assoc]

theorem printListItems_nonstrings (sep : String) (level factor : Nat)
    (l : List XObj) (h : ∀ e ∈ l, e.TypeValue ≠ XType.STRING) :
    printListItems sep level factor l =
      strConcat (l.map (fun e =>
        Indent ((level + 1) * factor) ++ e.Id ++ PrintCommentStr e ++ "," ++ sep)) := by
  induction l with
  | nil => rfl
  | cons e rest ih =>
    have he := h e (by simp)
    have hrest := ih (fun x hx => h x (by simp [hx]))
    simp [printListItems, listItemStr, he, strConcat, hrest]

/-- C6 counterexample: an `ObjectList` holding one non-`String` element,
rendered as a value inside an `AttributeGroup` parent under the expanded
layout (newline separator, factor 1), is NOT a single compact run: the
rendering puts indentation right after the opening parenthesis and a
newline separator after the element's comma, both strictly inside the
parentheses. -/
theorem C6_counterexample :
    PrintAttribute 4 "\n" 1 "l"
        (XObj.mk 15 PBXType.None XType.OBJECT_LIST "" "" []
          [XObj.mk 15 PBXType.None XType.OBJECT_REF "AAA" "" [] [] "" none] "" none)
        XType.ATTRIBUTE_GROUP = "\t\t\t\tl = (\t\t\t\t\tAAA,\n);\n" ∧
    containsSub ['(', '\t'] "\t\t\t\tl = (\t\t\t\t\tAAA,\n);\n".data = true ∧
    containsSub [',', '\n'] "\t\t\t\tl = (\t\t\t\t\tAAA,\n);\n".data = true := by
  exact ⟨by decide, by decide, by decide⟩

/-- C6 (amended): an `ObjectList` rendered inside an `AttributeGroup`
parent suppresses only the separator after `(` and the re-indentation
before `);`; `String` elements are always rendered as bare
comma-separated quoted literals, so a list whose elements are all
`String`s forms a single compact run inside an `AttributeGroup`, while
non-`String` elements always receive one-level-deeper indentation and a
trailing comma plus separator, so as a direct attribute of an `Object`
each non-`String` element is rendered on its own indented line. -/
theorem C6_amended (level factor : Nat) (sep name : String)
    (ver : Nat) (isa : PBXType) (id cm sv : String)
    (attrs : List (String × Option XObj)) (ob : Option XObj)
    (lst1 lst2 : List XObj)
    (h1 : ∀ e ∈ lst1, e.TypeValue = XType.STRING)
    (h2 : ∀ e ∈ lst2, e.TypeValue ≠ XType.STRING) :
    PrintAttribute level sep factor name
        (XObj.mk ver isa XType.OBJECT_LIST id cm attrs lst1 sv ob)
        XType.ATTRIBUTE_GROUP =
      Indent (level * factor) ++ name ++ " = (" ++
        commaRun (lst1.map (fun e => PrintString e.String_)) ++ ");" ++ sep ∧
    PrintAttribute level sep factor name
        (XObj.mk ver isa XType.OBJECT_LIST id cm attrs lst2 sv ob)
        XType.OBJECT =
      Indent (level * factor) ++ name ++ " = (" ++ sep ++
        strConcat (lst2.map (fun e =>
          Indent ((level + 1) * factor) ++ e.Id ++ PrintCommentStr e ++ "," ++ sep)) ++
        Indent (level * factor) ++ ");" ++ sep := by
  constructor
  · rw [PrintAttribute]
    rw [printListItems_strings sep level factor lst1 h1]
    simp [String.append_assoc]
  · rw [PrintAttribute]
    rw [printListItems_nonstrings sep level factor lst2 h2]
    simp [String.append_assoc]

/-- C6 witness: a two-string list inside an `AttributeGroup` and a
one-reference list directly inside an `Object`. -/
theorem C6_witness :
    PrintAttribute 4 "\n" 1 "FLAGS"
        (XObj.mk 15 PBXType.None XType.OBJECT_LIST "" "" []
          [XObj.mk 15 PBXType.None XType.STRING "" "" [] [] "a" none,
           XObj.mk 15 PBXType.None XType.STRING "" "" [] [] "b" none] "" none)
        XType.ATTRIBUTE_GROUP =
      Indent (4 * 1) ++ "FLAGS" ++ " = (" ++
        commaRun
          ([XObj.mk 15 PBXType.None XType.STRING "" "" [] [] "a" none,
            XObj.mk 15 PBXType.None XType.STRING "" "" [] [] "b" none].map
            (fun e => PrintString e.String_)) ++ ");" ++ "\n" ∧
    PrintAttribute 3 "\n" 1 "files"
        (XObj.mk 15 PBXType.None XType.OBJECT_LIST "" "" []
          [XObj.mk 15 PBXType.None XType.OBJECT_REF "AAA" "" [] [] "" none] "" none)
        XType.OBJECT =
      Indent (3 * 1) ++ "files" ++ " = (" ++ "\n" ++
        strConcat
          ([XObj.mk 15 PBXType.None XType.OBJECT_REF "AAA" "" [] [] "" none].map
            (fun e => Indent ((3 + 1) * 1) ++ e.Id ++ PrintCommentStr e ++ "," ++ "\n")) ++
        Indent (3 * 1) ++ ");" ++ "\n" := by
  constructor
  · exact (C6_amended 4 1 "\n" "FLAGS" 15 PBXType.None "" "" "" [] none _ []
      (by intro e he; simp at he; rcases he with rfl | rfl <;> rfl)
      (by intro e he; simp at he)).1
  · exact (C6_amended 3 1 "\n" "files" 15 PBXType.None "" "" "" [] none [] _
      (by intro e he; simp at he)
      (by intro e he; simp at he; subst he; decide)).2

/-- C7 counterexample: a one-element list whose element is a `String` —
the claim requires the element to be followed by a comma, but the
rendering of the whole attribute contains no comma at all: the last
`String` element is emitted as the bare quoted literal. -/
theorem C7_counterexample :
    PrintAttribute 3 "\n" 1 "files"
        (XObj.mk 15 PBXType.None XType.OBJECT_LIST "" "" []
          [XObj.mk 15 PBXType.None XType.STRING "" "" [] [] "abc" none] "" none)
        XType.OBJECT = "\t\t\tfiles = (\nabc\t\t\t);\n" ∧
    containsSub [','] "\t\t\tfiles = (\nabc\t\t\t);\n".data = false := by
  exact ⟨by decide, by decide⟩

/-- C7 (amended): when rendering an `ObjectList` attribute, a `String`
element that is not the last is emitted as the quoted literal followed by
a comma and nothing else; the last `String` element is emitted as the
quoted literal alone, with no comma; an element is last exactly when the
remainder of the list is empty. -/
theorem C7_amended (sep : String) (level factor : Nat) (e : XObj) (lst : List XObj)
    (he : e.TypeValue = XType.STRING) :
    listItemStr sep level factor e false = PrintString e.String_ ++ "," ∧
    listItemStr sep level factor e true = PrintString e.String_ ∧
    printListItems sep level factor (e :: lst) =
      listItemStr sep level factor e lst.isEmpty ++ printListItems sep level factor lst := by
  refine ⟨?_, ?_, rfl⟩
  · simp [listItemStr, he]
  · simp [listItemStr, he]

/-- C7 witness: a concrete `String` element. -/
theorem C7_witness :
    listItemStr "\n" 3 1 (XObj.mk 15 PBXType.None XType.STRING "" "" [] [] "abc" none)
        false =
      PrintString (XObj.mk 15 PBXType.None XType.STRING "" "" [] [] "abc" none).String_
        ++ "," ∧
    listItemStr "\n" 3 1 (XObj.mk 15 PBXType.None XType.STRING "" "" [] [] "abc" none)
        true =
      PrintString (XObj.mk 15 PBXType.None XType.STRING "" "" [] [] "abc" none).String_ ∧
    printListItems "\n" 3 1
        [XObj.mk 15 PBXType.None XType.STRING "" "" [] [] "abc" none] =
      listItemStr "\n" 3 1 (XObj.mk 15 PBXType.None XType.STRING "" "" [] [] "abc" none)
        (List.isEmpty ([] : List XObj)) ++ printListItems "\n" 3 1 [] :=
  C7_amended "\n" 3 1 _ [] (by decide)

/-- C8: an `ObjectReference` attribute with a set backing link renders the
(possibly quoted) attribute name, ` = `, the referenced object's
identifier, then the referenced object's comment exactly when that object
carries one and the attribute name is not `remoteGlobalIDString`, then `;`
and the active separator. -/
theorem C8_object_ref_attribute (level factor : Nat) (sep name : String)
    (ver : Nat) (isa : PBXType) (id cm sv : String)
    (attrs : List (String × Option XObj)) (lst : List XObj)
    (t t' : XObj) (ptv : XType)
    (hc : t.Comment ≠ "") (hc' : t'.Comment = "")
    (hn : name ≠ "remoteGlobalIDString") :
    PrintAttribute level sep factor name
        (XObj.mk ver isa XType.OBJECT_REF id cm attrs lst sv (some t)) ptv =
      Indent (level * factor) ++ (PrintString name ++ " = " ++
        (t.Id ++ PrintCommentStr t) ++ ";" ++ sep) ∧
    PrintAttribute level sep factor "remoteGlobalIDString"
        (XObj.mk ver isa XType.OBJECT_REF id cm attrs lst sv (some t)) ptv =
      Indent (level * factor) ++ (PrintString "remoteGlobalIDString" ++ " = " ++
        t.Id ++ ";" ++ sep) ∧
    PrintAttribute level sep factor name
        (XObj.mk ver isa XType.OBJECT_REF id cm attrs lst sv (some t')) ptv =
      Indent (level * factor) ++ (PrintString name ++ " = " ++ t'.Id ++ ";" ++ sep) := by
  refine ⟨?_, ?_, ?_⟩
  · rw [PrintAttribute]
    simp [HasComment, hc, hn, String.append_assoc]
  · rw [PrintAttribute]
    simp [String.append_assoc]
  · rw [PrintAttribute]
    simp [HasComment, hc', String.append_assoc]

/-- C8 witness: a referenced object with comment `c1` under names
`productRef` and `remoteGlobalIDString`, and one without a comment. -/
theorem C8_witness :
    PrintAttribute 3 "\n" 1 "productRef"
        (XObj.mk 15 PBXType.None XType.OBJECT_REF "" "" [] [] ""
          (some (XObj.mk 15 PBXType.None XType.OBJECT "TID" "c1" [] [] "" none)))
        XType.OBJECT =
      Indent (3 * 1) ++ (PrintString "productRef" ++ " = " ++
        ((XObj.mk 15 PBXType.None XType.OBJECT "TID" "c1" [] [] "" none).Id ++
          PrintCommentStr (XObj.mk 15 PBXType.None XType.OBJECT "TID" "c1" [] [] "" none)) ++
        ";" ++ "\n") ∧
    PrintAttribute 3 "\n" 1 "remoteGlobalIDString"
        (XObj.mk 15 PBXType.None XType.OBJECT_REF "" "" [] [] ""
          (some (XObj.mk 15 PBXType.None XType.OBJECT "TID" "c1" [] [] "" none)))
        XType.OBJECT =
      Indent (3 * 1) ++ (PrintString "remoteGlobalIDString" ++ " = " ++
        (XObj.mk 15 PBXType.None XType.OBJECT "TID" "c1" [] [] "" none).Id ++
        ";" ++ "\n") ∧
    PrintAttribute 3 "\n" 1 "productRef"
        (XObj.mk 15 PBXType.None XType.OBJECT_REF "" "" [] [] ""
          (some (XObj.mk 15 PBXType.None XType.OBJECT "TID2" "" [] [] "" none)))
        XType.OBJECT =
      Indent (3 * 1) ++ (PrintString "productRef" ++ " = " ++
        (XObj.mk 15 PBXType.None XType.OBJECT "TID2" "" [] [] "" none).Id ++
        ";" ++ "\n") :=
  C8_object_ref_attribute 3 1 "\n" "productRef" 15 PBXType.None "" "" "" [] []
    _ _ XType.OBJECT (by decide) (by decide) (by decide)

/-! ## Helper lemmas: content-derived identifiers -/

/-- Spec-side alphabet: the decimal digit characters. -/
def decimalChars : List Char :=
  ['0', '1', '2', '3', '4', '5', '6', '7', '8', '9']

/-- Spec-side alphabet: the lowercase hexadecimal characters. -/
def lowercaseHex : List Char :=
  decimalChars ++ ['a', 'b', 'c', 'd', 'e', 'f']

theorem digitChar_mem_hex (d : Nat) (hd : d < 16) : Nat.digitChar d ∈ lowercaseHex := by
  have h : ∀ d : Fin 16, Nat.digitChar d.val ∈ lowercaseHex := by decide
  exact h ⟨d, hd⟩

theorem mem_hex_ne_hyphen {c : Char} (h : c ∈ lowercaseHex) : c ≠ '-' := by
  rintro rfl
  simp [lowercaseHex, decimalChars] at h

theorem hexFlat_length (l : List Nat) :
    ((l.map hexByteChars).flatten).length = 2 * l.length := by
  induction l with
  | nil => rfl
  | cons b t ih => simp [hexByteChars, ih]; omega

theorem hexFlat_mem (l : List Nat) (hb : ∀ b ∈ l, b < 256) :
    ∀ c ∈ (l.map hexByteChars).flatten, c ∈ lowercaseHex := by
  induction l with
  | nil => simp
  | cons b t ih =>
    have hb0 := hb b (by simp)
    intro c hc
    simp only [List.map_cons, List.flatten_cons, List.mem_append] at hc
    rcases hc with hc | hc
    · simp only [hexByteChars, List.mem_cons, List.mem_singleton] at hc
      rcases hc with rfl | rfl | h
      · exact digitChar_mem_hex _ (by omega)
      · exact digitChar_mem_hex _ (by omega)
      · cases h
    · exact ih (fun x hx => hb x (by simp [hx])) c hc

theorem hexOf12_spec (bytes : List Nat) (hlen : bytes.length = 32)
    (hb : ∀ b ∈ bytes, b < 256) :
    (hexOf12 bytes).length = 24 ∧ ∀ c ∈ (hexOf12 bytes).data, c ∈ lowercaseHex := by
  constructor
  · show ((((bytes.take 12).map hexByteChars).flatten)).length = 24
    rw [hexFlat_length, List.length_take, hlen]
    rfl
  · intro c hc
    exact hexFlat_mem _ (fun b hbm => hb b (List.take_subset 12 bytes hbm)) c hc

theorem rawHashId_spec (digest : String → List Nat) (k : String)
    (hlen : (digest k).length = 32) (hb : ∀ b ∈ digest k, b < 256) :
    (rawHashId digest k "02").data =
      '0' :: '2' :: (hexOf12 (digest k)).data.eraseIdx 22 ∧
    (rawHashId digest k "02").length = 25 ∧
    ∀ c ∈ (rawHashId digest k "02").data, c ∈ lowercaseHex := by
  obtain ⟨h24, hmem⟩ := hexOf12_spec (digest k) hlen hb
  have hx : (("02" : String) ++ hexOf12 (digest k)).length = 26 := by
    rw [String.length_append, h24]
    rfl
  have hgt : (("02" : String) ++ hexOf12 (digest k)).length > 24 := by omega
  have hdata : (("02" : String) ++ hexOf12 (digest k)).data =
      '0' :: '2' :: (hexOf12 (digest k)).data := rfl
  have hraw : rawHashId digest k "02" =
      eraseAt24 ("02" ++ hexOf12 (digest k)) := by
    rw [rawHashId]
    simp only [if_pos hgt]
  have hrdata : (rawHashId digest k "02").data =
      '0' :: '2' :: (hexOf12 (digest k)).data.eraseIdx 22 := by
    rw [hraw]
    show (("02" ++ hexOf12 (digest k)).data.eraseIdx 24) = _
    rw [hdata]
    simp [List.eraseIdx_cons_succ]
  refine ⟨hrdata, ?_, ?_⟩
  · show (rawHashId digest k "02").data.length = 25
    rw [hrdata]
    simp only [List.length_cons, List.length_eraseIdx]
    have : (hexOf12 (digest k)).data.length = 24 := h24
    rw [this]
    norm_num
  · intro c hc
    rw [hrdata] at hc
    simp only [List.mem_cons] at hc
    rcases hc with rfl | rfl | hc
    · simp [lowercaseHex, decimalChars]
    · simp [lowercaseHex, decimalChars]
    · exact hmem c (List.eraseIdx_subset _ _ hc)

theorem hash_post (digest : String → List Nat) (k : String)
    (hlen : (digest k).length = 32) (hb : ∀ b ∈ digest k, b < 256) :
    cmReplaceHyphens (rawHashId digest k "02") = rawHashId digest k "02" ∧
    (rawHashId digest k "02").length = 25 ∧
    (⟨(rawHashId digest k "02").data.take 24⟩ : String) =
      "02" ++ (⟨(hexOf12 (digest k)).data.take 22⟩ : String) := by
  obtain ⟨hrdata, hrlen, hrmem⟩ := rawHashId_spec digest k hlen hb
  obtain ⟨h24, _⟩ := hexOf12_spec (digest k) hlen hb
  refine ⟨?_, hrlen, ?_⟩
  · show (⟨(rawHashId digest k "02").data.filter (fun c => c ≠ '-')⟩ : String) = _
    rw [List.filter_eq_self.mpr]
    · intro a ha
      simpa using mem_hex_ne_hyphen (hrmem a ha)
  · apply String.ext
    show (rawHashId digest k "02").data.take 24 =
      '0' :: '2' :: (hexOf12 (digest k)).data.take 22
    rw [hrdata]
    rw [List.take_succ_cons, List.take_succ_cons]
    congr 2
    rw [List.eraseIdx_eq_take_drop_succ]
    rw [List.take_append_of_le_length (by
      rw [List.length_take]
      have : (hexOf12 (digest k)).data.length = 24 := h24
      rw [this]
      norm_num)]
    rw [List.take_take]
    norm_num

theorem mk_hash (digest : String → List Nat) (pt : PBXType) (st : IdState)
    (k : String) (hk : k.length ≠ 0)
    (hlen : (digest k).length = 32) (hb : ∀ b ∈ digest k, b < 256)
    (hc : List.lookup ("02-" ++ k) st.objectIdCache = none ∨
      List.lookup ("02-" ++ k) st.objectIdCache = some (rawHashId digest k "02")) :
    (cmXCodeObjectMk digest pt XType.OBJECT k st).1.Id =
      "02" ++ (⟨(hexOf12 (digest k)).data.take 22⟩ : String) ∧
    List.lookup ("02-" ++ k)
        (cmXCodeObjectMk digest pt XType.OBJECT k st).2.objectIdCache =
      some (rawHashId digest k "02") ∧
    (cmXCodeObjectMk digest pt XType.OBJECT k st).1.Id.length = 24 := by
  obtain ⟨hfix, hrlen, htake⟩ := hash_post digest k hlen hb
  have hkey : ("02" : String) ++ "-" ++ k = "02-" ++ k := rfl
  have h1 : (cmGetUniqueXcodeId digest st k "02").1 = rawHashId digest k "02" := by
    rw [cmGetUniqueXcodeId]
    rcases hc with hc | hc
    · simp only [hkey, hc]
    · simp only [hkey, hc]
  have h2 : List.lookup ("02-" ++ k)
      (cmGetUniqueXcodeId digest st k "02").2.objectIdCache =
      some (rawHashId digest k "02") := by
    rw [cmGetUniqueXcodeId]
    rcases hc with hc | hc
    · simp only [hkey, hc]
      simp [List.lookup]
    · simp only [hkey, hc]
  have hred : cmXCodeObjectMk digest pt XType.OBJECT k st =
      (XObj.mk 15 pt XType.OBJECT
        (let id1 := cmReplaceHyphens (cmGetUniqueXcodeId digest st k "02").1
         if id1.length > 24 then (⟨id1.data.take 24⟩ : String) else id1) ""
        [("isa", none)] [] "" none,
       (cmGetUniqueXcodeId digest st k "02").2) := by
    rw [cmXCodeObjectMk, if_pos rfl, if_neg hk,
      ← @Prod.mk.eta _ _ (cmGetUniqueXcodeId digest st k "02")]
    rfl
  have hidval : (let id1 := cmReplaceHyphens (cmGetUniqueXcodeId digest st k "02").1
       if id1.length > 24 then (⟨id1.data.take 24⟩ : String) else id1) =
      "02" ++ (⟨(hexOf12 (digest k)).data.take 22⟩ : String) := by
    show (if (cmReplaceHyphens (cmGetUniqueXcodeId digest st k "02").1).length > 24 then
        (⟨(cmReplaceHyphens (cmGetUniqueXcodeId digest st k "02").1).data.take 24⟩ : String)
      else cmReplaceHyphens (cmGetUniqueXcodeId digest st k "02").1) = _
    rw [h1, hfix, hrlen, if_pos (by omega : 25 > 24)]
    exact htake
  obtain ⟨h24, _⟩ := hexOf12_spec (digest k) hlen hb
  have hidfin : (cmXCodeObjectMk digest pt XType.OBJECT k st).1.Id =
      "02" ++ (⟨(hexOf12 (digest k)).data.take 22⟩ : String) := by
    rw [hred]
    show (let id1 := cmReplaceHyphens (cmGetUniqueXcodeId digest st k "02").1
       if id1.length > 24 then (⟨id1.data.take 24⟩ : String) else id1) = _
    exact hidval
  refine ⟨hidfin, ?_, ?_⟩
  · rw [hred]
    exact h2
  · rw [hidfin, String.length_append]
    show 2 + ((hexOf12 (digest k)).data.take 22).length = 24
    rw [List.length_take]
    have : (hexOf12 (digest k)).data.length = 24 := h24
    rw [this]
    norm_num

/-- C1: constructing an `OBJECT` node with a non-empty derivation key
assigns it the identifier `02` followed by the first 22 lowercase-hex
characters of the digest of the key, exactly 24 characters, free of
hyphens (assuming the process-wide cache holds no foreign value for this
key, i.e. it is empty or was filled by this same computation). -/
theorem C1_content_derived_id (digest : String → List Nat) (pt : PBXType)
    (st : IdState) (k : String)
    (hk : k.length ≠ 0)
    (hlen : (digest k).length = 32)
    (hb : ∀ b ∈ digest k, b < 256)
    (hc : List.lookup ("02-" ++ k) st.objectIdCache = none ∨
      List.lookup ("02-" ++ k) st.objectIdCache = some (rawHashId digest k "02")) :
    (cmXCodeObjectMk digest pt XType.OBJECT k st).1.Id =
      "02" ++ (⟨(hexOf12 (digest k)).data.take 22⟩ : String) ∧
    (cmXCodeObjectMk digest pt XType.OBJECT k st).1.Id.length = 24 ∧
    (∀ c ∈ (cmXCodeObjectMk digest pt XType.OBJECT k st).1.Id.data, c ≠ '-') ∧
    (∀ c ∈ (cmXCodeObjectMk digest pt XType.OBJECT k st).1.Id.data,
      c ∈ lowercaseHex) := by
  obtain ⟨hid, _, hidlen⟩ := mk_hash digest pt st k hk hlen hb hc
  obtain ⟨h24, hmem⟩ := hexOf12_spec (digest k) hlen hb
  have hdat : (cmXCodeObjectMk digest pt XType.OBJECT k st).1.Id.data =
      '0' :: '2' :: (hexOf12 (digest k)).data.take 22 := by
    rw [hid]; rfl
  have hmem' : ∀ c ∈ (cmXCodeObjectMk digest pt XType.OBJECT k st).1.Id.data,
      c ∈ lowercaseHex := by
    intro c hcm
    rw [hdat] at hcm
    simp only [List.mem_cons] at hcm
    rcases hcm with rfl | rfl | hcm
    · simp [lowercaseHex, decimalChars]
    · simp [lowercaseHex, decimalChars]
    · exact hmem c (List.take_subset 22 _ hcm)
  exact ⟨hid, hidlen, fun c hcm => mem_hex_ne_hyphen (hmem' c hcm), hmem'⟩

/-- C1 witness: a concrete 32-byte digest on the key `"rootgroup"` with an
empty cache. -/
theorem C1_witness :
    (cmXCodeObjectMk (fun _ => List.range 32) PBXType.PBXGroup XType.OBJECT
        "rootgroup" ⟨[], 0⟩).1.Id =
      "02" ++ (⟨(hexOf12 ((fun (_ : String) => List.range 32) "rootgroup")).data.take 22⟩ :
        String) ∧
    (cmXCodeObjectMk (fun _ => List.range 32) PBXType.PBXGroup XType.OBJECT
        "rootgroup" ⟨[], 0⟩).1.Id.length = 24 ∧
    (∀ c ∈ (cmXCodeObjectMk (fun _ => List.range 32) PBXType.PBXGroup XType.OBJECT
        "rootgroup" ⟨[], 0⟩).1.Id.data, c ≠ '-') ∧
    (∀ c ∈ (cmXCodeObjectMk (fun _ => List.range 32) PBXType.PBXGroup XType.OBJECT
        "rootgroup" ⟨[], 0⟩).1.Id.data, c ∈ lowercaseHex) :=
  C1_content_derived_id (fun _ => List.range 32) PBXType.PBXGroup ⟨[], 0⟩ "rootgroup"
    (by decide) (by decide) (by decide) (Or.inl (by decide))

theorem getUnique_twice (digest : String → List Nat) (st : IdState)
    (k pfx : String) :
    (cmGetUniqueXcodeId digest (cmGetUniqueXcodeId digest st k pfx).2 k pfx).1 =
      (cmGetUniqueXcodeId digest st k pfx).1 := by
  cases hl : List.lookup (pfx ++ "-" ++ k) st.objectIdCache with
  | some v => simp [cmGetUniqueXcodeId, hl]
  | none => simp [cmGetUniqueXcodeId, hl, List.lookup]

/-- C2: requesting an identifier twice for the same derivation key within
one process lifetime yields the identical string both times — for every
tag at the raw cache level, and through the constructor the same final
24-character object identifier. -/
theorem C2_cache_idempotent (digest : String → List Nat) (pt : PBXType)
    (st : IdState) (k pfx : String)
    (hk : k.length ≠ 0)
    (hlen : (digest k).length = 32)
    (hb : ∀ b ∈ digest k, b < 256)
    (hc : List.lookup ("02-" ++ k) st.objectIdCache = none ∨
      List.lookup ("02-" ++ k) st.objectIdCache = some (rawHashId digest k "02")) :
    (cmGetUniqueXcodeId digest (cmGetUniqueXcodeId digest st k pfx).2 k pfx).1 =
      (cmGetUniqueXcodeId digest st k pfx).1 ∧
    (cmXCodeObjectMk digest pt XType.OBJECT k
        ((cmXCodeObjectMk digest pt XType.OBJECT k st).2)).1.Id =
      (cmXCodeObjectMk digest pt XType.OBJECT k st).1.Id ∧
    (cmXCodeObjectMk digest pt XType.OBJECT k st).1.Id.length = 24 := by
  obtain ⟨hid1, hcache1, hlen1⟩ := mk_hash digest pt st k hk hlen hb hc
  obtain ⟨hid2, _, _⟩ := mk_hash digest pt
    ((cmXCodeObjectMk digest pt XType.OBJECT k st).2) k hk hlen hb (Or.inr hcache1)
  exact ⟨getUnique_twice digest st k pfx, by rw [hid1, hid2], hlen1⟩

/-- C2 witness: two consecutive constructions with the key `"rootgroup"`
from an empty cache, plus raw cache determinism for the tag `"02"`. -/
theorem C2_witness :
    (cmGetUniqueXcodeId (fun _ => List.range 32)
        (cmGetUniqueXcodeId (fun _ => List.range 32) ⟨[], 0⟩ "rootgroup" "02").2
        "rootgroup" "02").1 =
      (cmGetUniqueXcodeId (fun _ => List.range 32) ⟨[], 0⟩ "rootgroup" "02").1 ∧
    (cmXCodeObjectMk (fun _ => List.range 32) PBXType.PBXGroup XType.OBJECT "rootgroup"
        ((cmXCodeObjectMk (fun _ => List.range 32) PBXType.PBXGroup XType.OBJECT
          "rootgroup" ⟨[], 0⟩).2)).1.Id =
      (cmXCodeObjectMk (fun _ => List.range 32) PBXType.PBXGroup XType.OBJECT
        "rootgroup" ⟨[], 0⟩).1.Id ∧
    (cmXCodeObjectMk (fun _ => List.range 32) PBXType.PBXGroup XType.OBJECT
        "rootgroup" ⟨[], 0⟩).1.Id.length = 24 :=
  C2_cache_idempotent (fun _ => List.range 32) PBXType.PBXGroup ⟨[], 0⟩ "rootgroup" "02"
    (by decide) (by decide) (by decide) (Or.inl (by decide))

/-! ## Helper lemmas: sequence-derived identifiers -/

theorem decDigits_of_lt (n : Nat) (h : n < 10) : decDigits n = [n] := by
  rw [decDigits]; simp [h]

theorem decDigits_of_ge (n : Nat) (h : ¬n < 10) :
    decDigits n = decDigits (n / 10) ++ [n % 10] := by
  rw [decDigits]; simp [h]

theorem decDigits_ne_nil (n : Nat) : decDigits n ≠ [] := by
  by_cases h : n < 10
  · rw [decDigits_of_lt n h]; simp
  · rw [decDigits_of_ge n h]; simp

theorem decDigits_lt10 (n : Nat) : ∀ d ∈ decDigits n, d < 10 := by
  induction n using Nat.strong_induction_on with
  | _ n ih =>
    by_cases h : n < 10
    · rw [decDigits_of_lt n h]
      intro d hd
      simp at hd
      omega
    · rw [decDigits_of_ge n h]
      intro d hd
      simp only [List.mem_append, List.mem_singleton] at hd
      rcases hd with hd | rfl
      · exact ih (n / 10) (Nat.div_lt_self (by omega) (by omega)) d hd
      · omega

theorem decDigits_head (n : Nat) (hn : 1 ≤ n) :
    ∃ d t, decDigits n = d :: t ∧ 1 ≤ d ∧ d < 10 := by
  induction n using Nat.strong_induction_on with
  | _ n ih =>
    by_cases h : n < 10
    · exact ⟨n, [], decDigits_of_lt n h, hn, h⟩
    · obtain ⟨d, t, hdt, h1, h9⟩ :=
        ih (n / 10) (Nat.div_lt_self (by omega) (by omega)) (by omega)
      exact ⟨d, t ++ [n % 10], by rw [decDigits_of_ge n h, hdt]; rfl, h1, h9⟩

theorem decDigits_length_mono : ∀ b a : Nat, a ≤ b →
    (decDigits a).length ≤ (decDigits b).length := by
  intro b
  induction b using Nat.strong_induction_on with
  | _ b ih =>
    intro a hab
    by_cases hb : b < 10
    · have ha : a < 10 := by omega
      rw [decDigits_of_lt a ha, decDigits_of_lt b hb]
      simp
    · by_cases ha : a < 10
      · rw [decDigits_of_lt a ha, decDigits_of_ge b hb]
        simp
      · rw [decDigits_of_ge a ha, decDigits_of_ge b hb]
        simp only [List.length_append, List.length_cons, List.length_nil]
        have hdiv : a / 10 ≤ b / 10 := Nat.div_le_div_right hab
        have := ih (b / 10) (Nat.div_lt_self (by omega) (by omega)) (a / 10) hdiv
        omega

theorem decDigits_length_le : ∀ n k : Nat, 1 ≤ k → n < 10 ^ k →
    (decDigits n).length ≤ k := by
  intro n
  induction n using Nat.strong_induction_on with
  | _ n ih =>
    intro k hk hnk
    by_cases hn : n < 10
    · rw [decDigits_of_lt n hn]
      simpa using hk
    · rw [decDigits_of_ge n hn]
      have hk2 : 2 ≤ k := by
        by_contra hcon
        have hke : k = 1 := by omega
        subst hke
        norm_num at hnk
        omega
      have hdiv : n / 10 < 10 ^ (k - 1) := by
        rw [Nat.div_lt_iff_lt_mul (by norm_num)]
        calc n < 10 ^ k := hnk
          _ = 10 ^ (k - 1) * 10 := by
            rw [← pow_succ]
            congr 1
            omega
      have := ih (n / 10) (Nat.div_lt_self (by omega) (by norm_num)) (k - 1)
        (by omega) hdiv
      simp only [List.length_append, List.length_cons, List.length_nil]
      omega

theorem lex_append_left (p : List Char) {xs ys : List Char}
    (h : List.Lex (fun c d => c < d) xs ys) :
    List.Lex (fun c d => c < d) (p ++ xs) (p ++ ys) := by
  induction p with
  | nil => simpa using h
  | cons c t ih => exact List.Lex.cons ih

theorem lex_append_last : ∀ {xs ys : List Char},
    List.Lex (fun c d => c < d) xs ys → xs.length = ys.length → ∀ d e : Char,
    List.Lex (fun c d => c < d) (xs ++ [d]) (ys ++ [e]) := by
  intro xs ys h
  induction h with
  | nil => intro hlen; simp at hlen
  | cons h ih =>
    intro hlen d e
    exact List.Lex.cons (ih (by simpa using hlen) d e)
  | rel hr => intro _ d e; exact List.Lex.rel hr

theorem lex_append_lt (xs : List Char) (d e : Char) (h : d < e) :
    List.Lex (fun c d => c < d) (xs ++ [d]) (xs ++ [e]) := by
  induction xs with
  | nil => exact List.Lex.rel h
  | cons c t ih => exact List.Lex.cons ih

theorem digitChar_lt_digitChar (d e : Nat) (hd : d < 10) (he : e < 10) (h : d < e) :
    Nat.digitChar d < Nat.digitChar e := by
  have hall : ∀ d e : Fin 10, d.val < e.val →
      Nat.digitChar d.val < Nat.digitChar e.val := by decide
  exact hall ⟨d, hd⟩ ⟨e, he⟩ h

theorem zero_lt_digitChar (d : Nat) (h1 : 1 ≤ d) (hd : d < 10) :
    ('0' : Char) < Nat.digitChar d := by
  have hall : ∀ d : Fin 10, 1 ≤ d.val → ('0' : Char) < Nat.digitChar d.val := by decide
  exact hall ⟨d, hd⟩ h1

theorem decDigits_lex : ∀ b a : Nat, a < b →
    (decDigits a).length = (decDigits b).length →
    List.Lex (fun c d => c < d) ((decDigits a).map Nat.digitChar)
      ((decDigits b).map Nat.digitChar) := by
  intro b
  induction b using Nat.strong_induction_on with
  | _ b ih =>
    intro a hab hlen
    by_cases hb : b < 10
    · have ha : a < 10 := by omega
      rw [decDigits_of_lt a ha, decDigits_of_lt b hb]
      exact List.Lex.rel (digitChar_lt_digitChar a b ha hb hab)
    · by_cases ha : a < 10
      · exfalso
        rw [decDigits_of_lt a ha, decDigits_of_ge b hb] at hlen
        simp only [List.length_cons, List.length_nil, List.length_append] at hlen
        have h0 : 0 < (decDigits (b / 10)).length :=
          List.length_pos.mpr (decDigits_ne_nil _)
        omega
      · rw [decDigits_of_ge a ha, decDigits_of_ge b hb] at hlen ⊢
        simp only [List.length_append, List.length_cons, List.length_nil] at hlen
        have hlen' : (decDigits (a / 10)).length = (decDigits (b / 10)).length := by
          omega
        have hdiv : a / 10 ≤ b / 10 := Nat.div_le_div_right (le_of_lt hab)
        simp only [List.map_append, List.map_cons, List.map_nil]
        rcases lt_or_eq_of_le hdiv with hlt | heq
        · exact lex_append_last
            (ih (b / 10) (Nat.div_lt_self (by omega) (by norm_num)) (a / 10) hlt hlen')
            (by simp [hlen']) _ _
        · rw [heq]
          have hmod : a % 10 < b % 10 := by omega
          exact lex_append_lt _ _ _
            (digitChar_lt_digitChar _ _ (Nat.mod_lt _ (by norm_num))
              (Nat.mod_lt _ (by norm_num)) hmod)

theorem padTo22_eq_aux : ∀ k (l : List Char), 22 - l.length = k →
    padTo22 l = List.replicate (22 - l.length) '0' ++ l := by
  intro k
  induction k with
  | zero =>
    intro l hl
    rw [padTo22, if_neg (by omega), show 22 - l.length = 0 from hl]
    simp
  | succ k ihk =>
    intro l hl
    have hlt : l.length < 22 := by omega
    rw [padTo22, if_pos hlt, ihk ('0' :: l) (by simp; omega)]
    have hsplit : 22 - l.length = (22 - ('0' :: l).length) + 1 := by simp; omega
    rw [hsplit, List.replicate_succ']
    simp

theorem padTo22_eq (l : List Char) :
    padTo22 l = List.replicate (22 - l.length) '0' ++ l :=
  padTo22_eq_aux (22 - l.length) l rfl

theorem padded_lex (a b : Nat) (hab : a < b) (hb : b < 10 ^ 22) :
    List.Lex (fun c d => c < d) (padTo22 ((decDigits a).map Nat.digitChar))
      (padTo22 ((decDigits b).map Nat.digitChar)) := by
  have hla : (decDigits a).length ≤ (decDigits b).length :=
    decDigits_length_mono b a (le_of_lt hab)
  have hlb : (decDigits b).length ≤ 22 := decDigits_length_le b 22 (by norm_num) hb
  rw [padTo22_eq, padTo22_eq]
  simp only [List.length_map]
  rcases eq_or_lt_of_le hla with heq | hlt
  · rw [heq]
    exact lex_append_left _ (decDigits_lex b a hab heq)
  · have hsplit : 22 - (decDigits a).length =
        (22 - (decDigits b).length) +
          ((decDigits b).length - (decDigits a).length) := by omega
    rw [hsplit, List.replicate_add, List.append_assoc]
    apply lex_append_left
    obtain ⟨d, t, hdt, h1, h9⟩ := decDigits_head b (by omega)
    obtain ⟨m, hm⟩ : ∃ m, (decDigits b).length - (decDigits a).length = m + 1 :=
      ⟨(decDigits b).length - (decDigits a).length - 1, by omega⟩
    rw [hm, List.replicate_succ, hdt]
    simp only [List.map_cons, List.cons_append]
    exact List.Lex.rel (zero_lt_digitChar d h1 h9)

/-- The sequence-derived identifier for counter value `k`, exactly as
assembled by the constructor: the tag `01` and the zero-padded decimal. -/
def seqIdOf (k : Nat) : String :=
  "01" ++ (⟨padTo22 (natToDecStr k).data⟩ : String)

theorem seqIdOf_data (k : Nat) :
    (seqIdOf k).data = '0' :: '1' :: padTo22 ((decDigits k).map Nat.digitChar) := rfl

theorem seqIdOf_length (k : Nat) (hk : (decDigits k).length ≤ 22) :
    (seqIdOf k).length = 24 := by
  show (seqIdOf k).data.length = 24
  rw [seqIdOf_data, padTo22_eq]
  simp only [List.length_cons, List.length_append, List.length_replicate,
    List.length_map]
  omega

theorem seqIdOf_lt (a b : Nat) (hab : a < b) (hb : b < 10 ^ 22) :
    seqIdOf a < seqIdOf b := by
  rw [String.lt_iff_toList_lt]
  show List.Lex (fun c d => c < d) (seqIdOf a).data (seqIdOf b).data
  rw [seqIdOf_data, seqIdOf_data]
  exact lex_append_left ['0', '1'] (padded_lex a b hab hb)

theorem seqIdOf_no_hyphen (k : Nat) : cmReplaceHyphens (seqIdOf k) = seqIdOf k := by
  show (⟨(seqIdOf k).data.filter (fun c => c ≠ '-')⟩ : String) = seqIdOf k
  rw [List.filter_eq_self.mpr]
  intro c hc
  rw [seqIdOf_data, padTo22_eq] at hc
  simp only [List.mem_cons, List.mem_append, List.mem_replicate, List.mem_map] at hc
  have hne : c ≠ '-' := by
    rcases hc with rfl | rfl | ⟨_, rfl⟩ | ⟨d, hd, rfl⟩
    · decide
    · decide
    · decide
    · exact mem_hex_ne_hyphen (digitChar_mem_hex d (by
        have := decDigits_lt10 k d hd
        omega))
  simpa using hne

theorem mk_seq (digest : String → List Nat) (pt : PBXType) (st : IdState) :
    cmXCodeObjectMk digest pt XType.OBJECT "" st =
      (XObj.mk 15 pt XType.OBJECT (seqIdOf ((st.sequenceIndex + 1) % sizeTMod)) ""
        [("isa", none)] [] "" none,
       { st with sequenceIndex := (st.sequenceIndex + 1) % sizeTMod }) := by
  have hlen22 : (decDigits ((st.sequenceIndex + 1) % sizeTMod)).length ≤ 22 := by
    apply decDigits_length_le _ 22 (by norm_num)
    calc (st.sequenceIndex + 1) % sizeTMod < sizeTMod :=
        Nat.mod_lt _ (by norm_num [sizeTMod])
      _ < 10 ^ 22 := by norm_num [sizeTMod]
  have h1 := seqIdOf_no_hyphen ((st.sequenceIndex + 1) % sizeTMod)
  have h2 := seqIdOf_length ((st.sequenceIndex + 1) % sizeTMod) hlen22
  have hred : cmXCodeObjectMk digest pt XType.OBJECT "" st =
      (XObj.mk 15 pt XType.OBJECT
        (if (cmReplaceHyphens (seqIdOf ((st.sequenceIndex + 1) % sizeTMod))).length > 24
         then (⟨(cmReplaceHyphens
            (seqIdOf ((st.sequenceIndex + 1) % sizeTMod))).data.take 24⟩ : String)
         else cmReplaceHyphens (seqIdOf ((st.sequenceIndex + 1) % sizeTMod))) ""
        [("isa", none)] [] "" none,
       { st with sequenceIndex := (st.sequenceIndex + 1) % sizeTMod }) := rfl
  rw [hred, h1, if_neg (by rw [h2]; omega)]

/-- The identifier stream of one sequential pass, as a function of the
starting counter value. -/
def seqIdsFrom (s : Nat) : Nat → List String
  | 0 => []
  | n + 1 => seqIdOf ((s + 1) % sizeTMod) :: seqIdsFrom ((s + 1) % sizeTMod) n

theorem runSeq_ids (digest : String → List Nat) (pt : PBXType) :
    ∀ n st, (runSeq digest pt n st).1 = seqIdsFrom st.sequenceIndex n := by
  intro n
  induction n with
  | zero => intro st; rfl
  | succ n ih =>
    intro st
    show ((cmXCodeObjectMk digest pt XType.OBJECT "" st).1.Id ::
        (runSeq digest pt n (cmXCodeObjectMk digest pt XType.OBJECT "" st).2).1) = _
    rw [mk_seq digest pt st]
    show seqIdOf ((st.sequenceIndex + 1) % sizeTMod) ::
        (runSeq digest pt n
          { st with sequenceIndex := (st.sequenceIndex + 1) % sizeTMod }).1 = _
    rw [ih]
    rfl

theorem seqIdsFrom_no_wrap : ∀ n s, s + n < sizeTMod →
    seqIdsFrom s n = (List.range' (s + 1) n).map seqIdOf := by
  intro n
  induction n with
  | zero => intro s _; rfl
  | succ n ih =>
    intro s h
    have hs1 : (s + 1) % sizeTMod = s + 1 := Nat.mod_eq_of_lt (by omega)
    show seqIdOf ((s + 1) % sizeTMod) :: seqIdsFrom ((s + 1) % sizeTMod) n = _
    rw [hs1, ih (s + 1) (by omega)]
    rfl

/-- C3: an `OBJECT` construction with an empty derivation key is assigned
`01` followed by the (incremented, 64-bit) counter value as a decimal
string zero-padded to 22 digits, 24 characters total; within one pass the
issued identifiers are strictly increasing in issuance order; a pass run
after an explicit `resetIdSequence` produces the identical identifier
sequence as a pass run from the initial (zero) counter. -/
theorem C3_sequential_ids (digest : String → List Nat) (pt : PBXType)
    (st st' st2 : IdState) (n i j : Nat)
    (hs0 : st.sequenceIndex = 0)
    (hn : n < sizeTMod) (hij : i < j) (hjn : j < n) :
    ((cmXCodeObjectMk digest pt XType.OBJECT "" st2).1.Id =
        "01" ++ (⟨padTo22 (natToDecStr
          ((st2.sequenceIndex + 1) % sizeTMod)).data⟩ : String) ∧
      (cmXCodeObjectMk digest pt XType.OBJECT "" st2).1.Id.length = 24) ∧
    (runSeq digest pt n st).1.getD i "" < (runSeq digest pt n st).1.getD j "" ∧
    (runSeq digest pt n (resetIdSequence st')).1 = (runSeq digest pt n st).1 := by
  have hM : sizeTMod = 18446744073709551616 := by norm_num [sizeTMod]
  refine ⟨⟨?_, ?_⟩, ?_, ?_⟩
  · rw [mk_seq]
    rfl
  · rw [mk_seq]
    show (seqIdOf ((st2.sequenceIndex + 1) % sizeTMod)).length = 24
    apply seqIdOf_length
    apply decDigits_length_le _ 22 (by norm_num)
    calc (st2.sequenceIndex + 1) % sizeTMod < sizeTMod :=
        Nat.mod_lt _ (by norm_num [sizeTMod])
      _ < 10 ^ 22 := by norm_num [sizeTMod]
  · rw [runSeq_ids, hs0, seqIdsFrom_no_wrap n 0 (by omega)]
    have hlen : ((List.range' (0 + 1) n).map seqIdOf).length = n := by
      rw [List.length_map, List.length_range']
    rw [List.getD_eq_getElem _ _ (by rw [hlen]; omega),
      List.getD_eq_getElem _ _ (by rw [hlen]; omega),
      List.getElem_map, List.getElem_map, List.getElem_range', List.getElem_range']
    apply seqIdOf_lt
    · omega
    · have h22 : sizeTMod < 10 ^ 22 := by norm_num [sizeTMod]
      omega
  · rw [runSeq_ids, runSeq_ids, hs0]
    rfl

/-- C3 witness: two constructions in a pass, compared at positions 0 and 1,
with a reset pass from a dirty state. -/
theorem C3_witness :
    ((cmXCodeObjectMk (fun _ => []) PBXType.PBXGroup XType.OBJECT ""
        (⟨[], 7⟩ : IdState)).1.Id =
      "01" ++ (⟨padTo22 (natToDecStr
        (((⟨[], 7⟩ : IdState).sequenceIndex + 1) % sizeTMod)).data⟩ : String) ∧
      (cmXCodeObjectMk (fun _ => []) PBXType.PBXGroup XType.OBJECT ""
        (⟨[], 7⟩ : IdState)).1.Id.length = 24) ∧
    (runSeq (fun _ => []) PBXType.PBXGroup 2 (⟨[], 0⟩ : IdState)).1.getD 0 "" <
      (runSeq (fun _ => []) PBXType.PBXGroup 2 (⟨[], 0⟩ : IdState)).1.getD 1 "" ∧
    (runSeq (fun _ => []) PBXType.PBXGroup 2
        (resetIdSequence (⟨[], 5⟩ : IdState))).1 =
      (runSeq (fun _ => []) PBXType.PBXGroup 2 (⟨[], 0⟩ : IdState)).1 :=
  C3_sequential_ids (fun _ => []) PBXType.PBXGroup ⟨[], 0⟩ ⟨[], 5⟩ ⟨[], 7⟩ 2 0 1
    rfl (by norm_num [sizeTMod]) (by omega) (by omega)

/-- C10: `CopyAttributes` replaces exactly the four payload members of the
destination (`ObjectAttributes`, `List`, `String`, `Object`) with the
source's, and leaves the destination's identifier, entity-type tag, node
kind, format version and comment unchanged. -/
theorem C10_copy_attributes (self cpy : XObj) :
    (CopyAttributes self cpy).ObjectAttributes = cpy.ObjectAttributes ∧
    (CopyAttributes self cpy).List_ = cpy.List_ ∧
    (CopyAttributes self cpy).String_ = cpy.String_ ∧
    (CopyAttributes self cpy).Object_ = cpy.Object_ ∧
    (CopyAttributes self cpy).Id = self.Id ∧
    (CopyAttributes self cpy).IsA = self.IsA ∧
    (CopyAttributes self cpy).TypeValue = self.TypeValue ∧
    (CopyAttributes self cpy).Version = self.Version ∧
    (CopyAttributes self cpy).Comment = self.Comment := by
  cases self with
  | mk v i tv id cm a l s ob =>
    cases cpy with
    | mk v' i' tv' id' cm' a' l' s' ob' =>
      simp [CopyAttributes, XObj.ObjectAttributes, XObj.List_, XObj.String_,
        XObj.Object_, XObj.Id, XObj.IsA, XObj.TypeValue, XObj.Version, XObj.Comment]

end CMakeXcode

namespace CPackNSIS

/-- C9 counterexample: the missing-template failure prints
`CPack error: Could not find NSIS installer template file.` and returns
failure, but writes no log file at all and its message names no log path —
contradicting the claim that every failure message is accompanied by the
path to a diagnostic log. -/
theorem C9_counterexample :
    CompressFiles
        { templateFile := "", toplevel := "/top", installerProgram := "makensis",
          runOk := true, retVal := 0, runOutput := "" } =
      { retcode := 0,
        errors := ["CPack error: Could not find NSIS installer template file."],
        logs := [] } ∧
    CMakeXcode.containsSub ".log".data
        "CPack error: Could not find NSIS installer template file.".data = false := by
  exact ⟨by decide, by decide⟩

/-- C9 (amended): every user-visible failure of the NSIS backend — missing
installer template, missing registry value, missing `makensis` compiler,
and external-tool launch failure or non-zero exit — returns a failure
result (0); only the launch-failure/non-zero-exit case writes the captured
tool output to `NSISOutput.log` beside the generated artifact and names
that log path in its message; the missing-template and missing-tool
failures print an error without any log path and write no log. -/
theorem C9_amended (ce1 ce2 : CompressEnv) (ie1 ie2 : InitEnv) (r : String)
    (h1 : ce1.templateFile.length = 0)
    (h2a : ce2.templateFile.length ≠ 0)
    (h2b : ce2.runOk = false ∨ ce2.retVal ≠ 0)
    (h3 : ie1.registryNSIS = none)
    (h4a : ie2.registryNSIS = some r) (h4b : ie2.makensisProgram.length = 0) :
    CompressFiles ce1 =
      { retcode := 0,
        errors := ["CPack error: Could not find NSIS installer template file."],
        logs := [] } ∧
    CompressFiles ce2 =
      { retcode := 0,
        errors := ["Problem running NSIS command: " ++
            ("\"" ++ ce2.installerProgram ++ "\" \"" ++
              (ce2.toplevel ++ "/project.nsi") ++ "\""),
          "Please check " ++ (ce2.toplevel ++ "/NSISOutput.log") ++ " for errors"],
        logs := [(ce2.toplevel ++ "/NSISOutput.log",
          "# Run command: " ++
            ("\"" ++ ce2.installerProgram ++ "\" \"" ++
              (ce2.toplevel ++ "/project.nsi") ++ "\"") ++
            "\n# Output:\n" ++ ce2.runOutput ++ "\n")] } ∧
    NSISInitialize ie1 =
      { retcode := 0, errors := ["Cannot find NSIS registry value"],
        installerProgramOpt := none } ∧
    NSISInitialize ie2 =
      { retcode := 0, errors := ["Cannot find NSIS compiler"],
        installerProgramOpt := none } := by
  refine ⟨?_, ?_, ?_, ?_⟩
  · simp [CompressFiles, h1]
  · have hcond : (!ce2.runOk || ce2.retVal ≠ 0) = true := by
      rcases h2b with h | h
      · simp [h]
      · simp [h]
    simp [CompressFiles, h2a, hcond]
    intro hr
    rcases h2b with h | h
    · rw [hr] at h; cases h
    · exact h
  · simp [NSISInitialize, h3]
  · simp [NSISInitialize, h4a, h4b]

/-- C9 witness: concrete environments exercising all four failure paths. -/
theorem C9_witness :
    CompressFiles
        { templateFile := "", toplevel := "/a", installerProgram := "m",
          runOk := true, retVal := 0, runOutput := "" } =
      { retcode := 0,
        errors := ["CPack error: Could not find NSIS installer template file."],
        logs := [] } ∧
    CompressFiles
        { templateFile := "/T/NSIS.template.in", toplevel := "/a",
          installerProgram := "m", runOk := true, retVal := 1, runOutput := "boom" } =
      { retcode := 0,
        errors := ["Problem running NSIS command: " ++
            ("\"" ++ "m" ++ "\" \"" ++ ("/a" ++ "/project.nsi") ++ "\""),
          "Please check " ++ ("/a" ++ "/NSISOutput.log") ++ " for errors"],
        logs := [("/a" ++ "/NSISOutput.log",
          "# Run command: " ++
            ("\"" ++ "m" ++ "\" \"" ++ ("/a" ++ "/project.nsi") ++ "\"") ++
            "\n# Output:\n" ++ "boom" ++ "\n")] } ∧
    NSISInitialize { registryNSIS := none, makensisProgram := "", superInit := 1 } =
      { retcode := 0, errors := ["Cannot find NSIS registry value"],
        installerProgramOpt := none } ∧
    NSISInitialize { registryNSIS := some "/nsis", makensisProgram := "", superInit := 1 } =
      { retcode := 0, errors := ["Cannot find NSIS compiler"],
        installerProgramOpt := none } :=
  C9_amended _ _ _ _ "/nsis" (by decide) (by decide) (Or.inr (by decide)) rfl rfl
    (by decide)

end CPackNSIS
